import Mathlib

/-!
Shallow embedding of the CalWORKs dashboard CSV ingestion pipeline
(`src/app.py`): column normalization, header-row detection, date
reconciliation, metric-cell mapping, row/value sanitization, wide-to-long
melt, and the final sort/deduplicate assembly of `load_all`.

A CSV cell is `Option String`: `none` models a missing value (pandas `NaN`).
Machine floats never carry semantic weight in the pipeline (numeric cells are
parsed from their textual form), so numeric values are modelled as `ℚ`.
-/

/-- A cell of a CSV table: `none` is a missing value (pandas `NaN`). -/
abbrev Cell := Option String

/-- A raw CSV file as a grid of cells (one inner list per physical line). -/
abbrev Grid := List (List Cell)

/-- Python `str(...)` on a cell: a missing value (`NaN`) prints as `"nan"`. -/
def pyStr : Cell → String
  | none => "nan"
  | some s => s

/-- The whitespace characters stripped by Python's `str.strip()`
(ASCII subset, which covers the data the pipeline sees). -/
def isSpaceChar (c : Char) : Bool :=
  (c == ' ') || (c == '\t') || (c == '\n') || (c == '\r') || (c == '\x0b') || (c == '\x0c')

/-- Python `str.strip()` on a character list. -/
def pyStripList (cs : List Char) : List Char :=
  ((cs.dropWhile isSpaceChar).reverse.dropWhile isSpaceChar).reverse

/-- Python `str.strip()`. -/
def pyStrip (s : String) : String := ⟨pyStripList s.toList⟩

/-- Python `str.lstrip("﻿")`: drop every leading byte-order marker. -/
def lstripBom (cs : List Char) : List Char := cs.dropWhile (· == '﻿')

/-- `norm_col` from `app.py`: `str(val).strip().lstrip("﻿").strip()`,
on the character-list representation. -/
def norm_colList (cs : List Char) : List Char := pyStripList (lstripBom (pyStripList cs))

/-- `norm_col` from `app.py` on strings. -/
def norm_col (s : String) : String := ⟨norm_colList s.toList⟩

/-- Python `str.lower()` (ASCII, which covers the pipeline's labels). -/
def lowerStr (s : String) : String := ⟨s.toList.map Char.toLower⟩

/-- Decimal value of a digit string (most significant first). -/
def digitsVal (cs : List Char) : Nat :=
  cs.foldl (fun a c => a * 10 + (c.toNat - 48)) 0

/-- Decimal rendering of a natural number, as a string. -/
def natStr (n : Nat) : String := ⟨Nat.toDigits 10 n⟩

/-- Split a character list at every occurrence of a separator character
(the pieces do not contain the separator; n separators give n+1 pieces). -/
def splitChar (sep : Char) : List Char → List (List Char)
  | [] => [[]]
  | a :: t =>
    match splitChar sep t with
    | [] => [[]]
    | p :: ps => if a == sep then [] :: p :: ps else (a :: p) :: ps

/-- Does `needle` occur as a contiguous substring of `hay`? -/
def containsSub (needle : List Char) : List Char → Bool
  | [] => decide (needle = [])
  | c :: cs => decide ((c :: cs).take needle.length = needle) || containsSub needle cs

/-- A calendar date as produced by the date reconciler (pandas `Timestamp`
truncated to its year/month/day, the only parts the pipeline uses). -/
structure CDate where
  year : Nat
  month : Nat
  day : Nat
deriving DecidableEq

/-- Chronological sort key of a date. -/
def dateKey (d : CDate) : Nat := (d.year * 100 + d.month) * 100 + d.day

/-- Month abbreviations as produced/parsed by `%b`. -/
def monthAbbrevs : List String :=
  ["Jan", "Feb", "Mar", "Apr", "May", "Jun", "Jul", "Aug", "Sep", "Oct", "Nov", "Dec"]

/-- Full month names as parsed by `%B`. -/
def monthFullNames : List String :=
  ["January", "February", "March", "April", "May", "June",
   "July", "August", "September", "October", "November", "December"]

/-- Case-insensitive `%b` month-abbreviation lookup: `"SEP"` ↦ 9. -/
def monthNum (cs : List Char) : Option Nat :=
  (List.range 12).findSome? fun i =>
    if (monthAbbrevs.getD i "").toList.map Char.toLower = cs.map Char.toLower
    then some (i + 1) else none

/-- Case-insensitive `%B` full-month-name lookup. -/
def monthNumFull (cs : List Char) : Option Nat :=
  (List.range 12).findSome? fun i =>
    if (monthFullNames.getD i "").toList.map Char.toLower = cs.map Char.toLower
    then some (i + 1) else none

/-- Leap-year rule used by calendar validation. -/
def isLeapYear (y : Nat) : Bool := y % 4 == 0 && (y % 100 != 0 || y % 400 == 0)

/-- Days in a month, for `%d` validation (as `datetime` construction does). -/
def daysInMonth (y m : Nat) : Nat :=
  if m = 2 then (if isLeapYear y then 29 else 28)
  else if m = 4 ∨ m = 6 ∨ m = 9 ∨ m = 11 then 30
  else 31

/-- `strptime`-style `%b%y` parse of an (already upper-cased) string such as
`"SEP25"`: three-letter month abbreviation immediately followed by a
two-digit year; `%y` maps 00–68 to 2000–2068 and 69–99 to 1969–1999. -/
def parseBy (cs : List Char) : Option CDate :=
  if cs.length = 5 ∧ (cs.drop 3).all Char.isDigit then
    match monthNum (cs.take 3) with
    | some m =>
      let yy := digitsVal (cs.drop 3)
      some ⟨if yy ≤ 68 then 2000 + yy else 1900 + yy, m, 1⟩
    | none => none
  else none

/-- `%Y%m` parse of the decimal rendering of an integer: a four-digit year
followed by a one- or two-digit month in 1..12; day defaults to 1. -/
def parseYm6 (cs : List Char) : Option CDate :=
  if cs.all Char.isDigit ∧ (cs.length = 5 ∨ cs.length = 6) then
    let y := digitsVal (cs.take 4)
    let m := digitsVal (cs.drop 4)
    if 1 ≤ m ∧ m ≤ 12 then some ⟨y, m, 1⟩ else none
  else none

/-- `%Y-%m`: four-digit year, dash, one/two-digit month; day 1. -/
def parseFmtYm (cs : List Char) : Option CDate :=
  match splitChar '-' cs with
  | [y, m] =>
    if y.length = 4 ∧ y.all Char.isDigit ∧ 1 ≤ m.length ∧ m.length ≤ 2 ∧
       m.all Char.isDigit ∧ 1 ≤ digitsVal m ∧ digitsVal m ≤ 12
    then some ⟨digitsVal y, digitsVal m, 1⟩ else none
  | _ => none

/-- `%Y-%m-%d`: dashes, with calendar-valid day. -/
def parseFmtYmd (cs : List Char) : Option CDate :=
  match splitChar '-' cs with
  | [y, m, d] =>
    if y.length = 4 ∧ y.all Char.isDigit ∧ 1 ≤ m.length ∧ m.length ≤ 2 ∧
       m.all Char.isDigit ∧ 1 ≤ digitsVal m ∧ digitsVal m ≤ 12 ∧
       1 ≤ d.length ∧ d.length ≤ 2 ∧ d.all Char.isDigit ∧
       1 ≤ digitsVal d ∧ digitsVal d ≤ daysInMonth (digitsVal y) (digitsVal m)
    then some ⟨digitsVal y, digitsVal m, digitsVal d⟩ else none
  | _ => none

/-- `%m/%Y`: one/two-digit month, slash, four-digit year; day 1. -/
def parseFmtMY (cs : List Char) : Option CDate :=
  match splitChar '/' cs with
  | [m, y] =>
    if y.length = 4 ∧ y.all Char.isDigit ∧ 1 ≤ m.length ∧ m.length ≤ 2 ∧
       m.all Char.isDigit ∧ 1 ≤ digitsVal m ∧ digitsVal m ≤ 12
    then some ⟨digitsVal y, digitsVal m, 1⟩ else none
  | _ => none

/-- `%m/%d/%Y`: slashes, with calendar-valid day. -/
def parseFmtMDY (cs : List Char) : Option CDate :=
  match splitChar '/' cs with
  | [m, d, y] =>
    if y.length = 4 ∧ y.all Char.isDigit ∧ 1 ≤ m.length ∧ m.length ≤ 2 ∧
       m.all Char.isDigit ∧ 1 ≤ digitsVal m ∧ digitsVal m ≤ 12 ∧
       1 ≤ d.length ∧ d.length ≤ 2 ∧ d.all Char.isDigit ∧
       1 ≤ digitsVal d ∧ digitsVal d ≤ daysInMonth (digitsVal y) (digitsVal m)
    then some ⟨digitsVal y, digitsVal m, digitsVal d⟩ else none
  | _ => none

/-- `%b %Y`: month abbreviation, space, four-digit year; day 1. -/
def parseFmtBY (cs : List Char) : Option CDate :=
  match splitChar ' ' cs with
  | [b, y] =>
    if y.length = 4 ∧ y.all Char.isDigit then
      match monthNum b with
      | some m => some ⟨digitsVal y, m, 1⟩
      | none => none
    else none
  | _ => none

/-- `%B %Y`: full month name, space, four-digit year; day 1. -/
def parseFmtBBY (cs : List Char) : Option CDate :=
  match splitChar ' ' cs with
  | [b, y] =>
    if y.length = 4 ∧ y.all Char.isDigit then
      match monthNumFull b with
      | some m => some ⟨digitsVal y, m, 1⟩
      | none => none
    else none
  | _ => none

/-- `%Y%m%d`: eight digits, calendar-valid. -/
def parseYmd8 (cs : List Char) : Option CDate :=
  if cs.length = 8 ∧ cs.all Char.isDigit then
    let y := digitsVal (cs.take 4)
    let m := digitsVal ((cs.drop 4).take 2)
    let d := digitsVal (cs.drop 6)
    if 1 ≤ m ∧ m ≤ 12 ∧ 1 ≤ d ∧ d ≤ daysInMonth y m then some ⟨y, m, d⟩ else none
  else none

/-- The fixed sequence of explicit formats tried by `parse_date_series`. -/
def fmtChain : List (List Char → Option CDate) :=
  [parseFmtYm, parseFmtYmd, parseFmtMY, parseFmtMDY, parseFmtBY, parseFmtBBY]

/-- Model of the final best-effort `pd.to_datetime(s, errors="coerce")`
fallback: it recognizes the common calendar encodings (the explicit formats
plus compact `YYYYMMDD`); anything else coerces to missing. -/
def toDatetimeGeneric (cs : List Char) : Option CDate :=
  (fmtChain ++ [parseYmd8]).findSome? fun f => f cs

/-- Strip one trailing `".0"` numeric-storage artifact
(`str.replace(r"\.0$", "", regex=True)`). -/
def stripDot0 (cs : List Char) : List Char :=
  if cs.reverse.take 2 = ['0', '.'] then (cs.reverse.drop 2).reverse else cs

/-- Mantissa of a numeric literal: digits with at most one decimal point and
at least one digit overall. Returns the digit value with the decimal point
removed, together with the number of fractional digits (so the mantissa's
value is the first component divided by `10 ^` the second). -/
def parseMantissa (cs : List Char) : Option (Nat × Nat) :=
  match splitChar '.' cs with
  | [ip] => if ip ≠ [] ∧ ip.all Char.isDigit then some (digitsVal ip, 0) else none
  | [ip, fp] =>
    if (ip ≠ [] ∨ fp ≠ []) ∧ ip.all Char.isDigit ∧ fp.all Char.isDigit
    then some (digitsVal (ip ++ fp), fp.length) else none
  | _ => none

/-- Exponent part of a numeric literal: optional sign, then digits. -/
def parseExpPart (cs : List Char) : Option Int :=
  match cs with
  | [] => none
  | a :: r =>
    if a == '+' then
      (if r ≠ [] ∧ r.all Char.isDigit then some (digitsVal r : Int) else none)
    else if a == '-' then
      (if r ≠ [] ∧ r.all Char.isDigit then some (-(digitsVal r : Int)) else none)
    else if (a :: r).all Char.isDigit then some (digitsVal (a :: r) : Int) else none

/-- Assemble a parsed numeral `± mantissa ⋅ 10 ^ (exp − fracLen)` into a
rational. -/
def assembleNum (sgn : Int) (mant : Nat) (fracLen : Nat) (ex : Int) : ℚ :=
  let shift : Int := ex - (fracLen : Int)
  if 0 ≤ shift then mkRat (sgn * (mant : Int) * (10 : Int) ^ shift.natAbs) 1
  else mkRat (sgn * (mant : Int)) ((10 : Nat) ^ shift.natAbs)

/-- Model of `pd.to_numeric(v, errors="coerce")` on a string value:
surrounding whitespace is ignored; an optional sign, a decimal mantissa and
an optional exponent are accepted; anything else (thousands separators,
de-identification markers, words) coerces to missing. -/
def toNumeric (s : String) : Option ℚ :=
  let cs := pyStripList s.toList
  let sgn : Int := if cs.head? = some '-' then -1 else 1
  let body : List Char :=
    if cs.head? = some '+' ∨ cs.head? = some '-' then cs.tail else cs
  match splitChar 'e' (body.map Char.toLower) with
  | [m] => (parseMantissa m).map fun p => assembleNum sgn p.1 p.2 0
  | [m, ex] =>
    (parseMantissa m).bind fun p =>
      (parseExpPart ex).map fun e => assembleNum sgn p.1 p.2 e
  | _ => none

/-- Python `int(...)` / numpy `astype(int)` on a rational: truncation
toward zero. -/
def pyIntOfRat (q : ℚ) : Int := q.num.tdiv (q.den : Int)

/-- Decimal rendering of an integer, as a character list. -/
def intDigits (i : Int) : List Char :=
  if i < 0 then '-' :: Nat.toDigits 10 i.natAbs else Nat.toDigits 10 i.natAbs

/-- One element of `parse_date_series` from `app.py`: the cell is rendered
with `str`, stripped, a trailing `".0"` removed, and then the encodings are
tried in precedence order — upper-cased `%b%y`; `%Y%m` on the integer part of
a numeric value; the fixed format chain; the generic fallback. -/
def parseDateElem (c : Cell) : Option CDate :=
  let s0 := stripDot0 (pyStripList (pyStr c).toList)
  let r1 := parseBy (s0.map Char.toUpper)
  let r2 := match r1 with
    | some d => some d
    | none =>
      match toNumeric ⟨s0⟩ with
      | some q => parseYm6 (intDigits (pyIntOfRat q))
      | none => none
  let r3 := match r2 with
    | some d => some d
    | none => fmtChain.findSome? fun f => f s0
  match r3 with
  | some d => some d
  | none => toDatetimeGeneric s0

/-- `parse_date_series` applied to column `i` of a list of rows. -/
def parseSeries (rows : List (List Cell)) (i : Nat) : List (Option CDate) :=
  rows.map fun r => parseDateElem ((r.get? i).join)

/-- A pandas DataFrame as the pipeline sees it: an ordered column-label list
and row-major cells (cell `i` of a row belongs to column `i`). -/
structure Table where
  header : List String
  rows : List (List Cell)
deriving DecidableEq

/-- Cell of row `r` in column position `i` (missing position = missing cell). -/
def cellAt (r : List Cell) (i : Nat) : Cell := (r.get? i).join

/-- Column labels produced by `pd.read_csv` from a header line: a missing
header cell becomes `"Unnamed: k"` for its position `k`. -/
def headerLabels (cells : List Cell) : List String :=
  cells.enum.map fun p =>
    match p.2 with
    | some s => s
    | none => "Unnamed: " ++ natStr p.1

/-- Keep predicate of `normalize_columns`: a column is dropped when its
cleaned label is empty or starts with `"unnamed"` (case-insensitively). -/
def keepCol (c : String) : Bool :=
  !(norm_col c == "" || decide ((lowerStr (norm_col c)).toList.take 7 = "unnamed".toList))

/-- Canonical renaming of `normalize_columns`: known case-insensitive header
aliases map to the fixed canonical names; other labels pass through. -/
def canonName (c : String) : String :=
  let low := lowerStr (norm_col c)
  if low = "date" ∨ low = "date code" ∨ low = "date_code" then "Date_Code"
  else if low = "county name" ∨ low = "county_name" ∨ low = "county" then "County_Name"
  else if low = "county code" ∨ low = "county_code" then "County_Code"
  else if low = "report month" ∨ low = "report_month" then "Report_Month"
  else if low = "month" then "Month"
  else if low = "year" then "Year"
  else c

/-- Pad a row with missing cells up to the column count. -/
def rowPad (n : Nat) (r : List Cell) : List Cell := r ++ List.replicate (n - r.length) none

/-- Keep the cells of a row whose column survives the keep mask. -/
def maskKeep (mask : List Bool) (r : List Cell) : List Cell :=
  ((mask.zip r).filter (·.1)).map (·.2)

/-- `normalize_columns` from `app.py`: drop empty/"unnamed" columns, then
rename known aliases to canonical names. -/
def normalize_columns (t : Table) : Table :=
  { header := (t.header.filter keepCol).map canonName
    rows := t.rows.map fun r => maskKeep (t.header.map keepCol) (rowPad t.header.length r) }

/-- The lower-cased cleaned column-name blob checked for `"county"` in
`read_cw_csv`. -/
def colBlob (hs : List String) : List Char :=
  (String.intercalate " " (hs.map fun c => lowerStr (norm_col c))).toList

/-- `pd.read_csv(path, header=h)` followed by `normalize_columns`: row `h`
becomes the header, later rows the data; a header row beyond the file raises
(modelled as `none`, which the caller treats as "try the next candidate"). -/
def readWithHeader (g : Grid) (h : Nat) : Option Table :=
  match g.get? h with
  | some hr => some (normalize_columns ⟨headerLabels hr, g.drop (h + 1)⟩)
  | none => none

/-- `read_cw_csv` from `app.py`: try header rows 4, 5, 0 in order and accept
the first attempt whose normalized columns mention `"county"`; also report
which header row was used (for the log line). `none` means every candidate
was exhausted. -/
def read_cw_csv (g : Grid) : Option (Nat × Table) :=
  [4, 5, 0].findSome? fun h =>
    match readWithHeader g h with
    | some t => if containsSub "county".toList (colBlob t.header) then some (h, t) else none
    | none => none

/-- Cell-identifier recognizer of `map_metric_columns` on a character list:
the regex `^(?:Cell\s*)?(\d+)$` (case-insensitive) applied to the cleaned
label; the digits are the 1-based cell number. Case-insensitivity only
affects the optional `Cell` prefix, `\s*` eats the whitespace after it, and
the remainder (or, without the prefix, the whole cleaned label) must be one
or more digits. -/
def cellIdList (cs0 : List Char) : Option Nat :=
  let cs := norm_colList cs0
  let body := if (cs.take 4).map Char.toLower = ['c', 'e', 'l', 'l']
              then (cs.drop 4).dropWhile isSpaceChar else cs
  if body ≠ [] ∧ body.all Char.isDigit then some (digitsVal body) else none

/-- Cell-identifier recognizer on a column label. -/
def cellId (s : String) : Option Nat := cellIdList s.toList

/-- Per-label renaming of `map_metric_columns`: cell number `n` within
`[1, len(metrics)]` maps to `metrics[n-1]`; other labels are unchanged. -/
def renameMetric (metrics : List String) (c : String) : String :=
  match cellId c with
  | some n => if 1 ≤ n ∧ n ≤ metrics.length then (metrics.get? (n - 1)).getD c else c
  | none => c

/-- `map_metric_columns` from `app.py`: rename matching columns in place;
nothing is dropped and non-matching labels are untouched. -/
def map_metric_columns (metrics : List String) (t : Table) : Table :=
  { t with header := t.header.map (renameMetric metrics) }

/-- One normalized observation of the final long-form Dataset. -/
structure LongRow where
  Date : CDate
  Report_Month : Option String
  County_Name : String
  Metric : String
  Value : ℚ
deriving DecidableEq

/-- The deduplication key of `drop_duplicates(subset=["Date", "County_Name",
"Metric"])`. -/
def rowKey (r : LongRow) : CDate × String × String := (r.Date, r.County_Name, r.Metric)

/-- Position of the `County_Name` column. -/
def countyIdx (t : Table) : Nat := t.header.indexOf "County_Name"

/-- `df["County_Name"].astype(str).str.strip()` for one row: a missing cell
prints as the string `"nan"` before stripping. -/
def countyName (r : List Cell) (i : Nat) : String := pyStrip (pyStr (cellAt r i))

/-- The county row filter of `load_all`: drop the exact label `"Statewide"`
and labels with no ASCII letter. (The `dropna` between the two original
filters is a no-op: after `astype(str)` no value is missing.) -/
def countyKeep (cn : String) : Bool :=
  (cn != "Statewide") && cn.toList.any Char.isAlpha

/-- The rows of a table surviving the county sanitizer. -/
def countyFilteredRows (t : Table) : List (List Cell) :=
  t.rows.filter fun r => countyKeep (countyName r (countyIdx t))

/-- `build_date` from `app.py`, Report_Month arm: accept the parsed
`Report_Month` series only if some row parsed; otherwise every date is
missing. -/
def buildFromRM (header : List String) (rows : List (List Cell)) : List (Option CDate) :=
  match header.indexOf? "Report_Month" with
  | some i =>
    let p := parseSeries rows i
    if p.any Option.isSome then p else rows.map fun _ => none
  | none => rows.map fun _ => none

/-- `build_date` from `app.py`: try `Date_Code`, then `Report_Month`; a
source is authoritative only if at least one row parses under it; with no
source, every row's date is missing. -/
def build_date (header : List String) (rows : List (List Cell)) : List (Option CDate) :=
  match header.indexOf? "Date_Code" with
  | some i =>
    let p := parseSeries rows i
    if p.any Option.isSome then p else buildFromRM header rows
  | none => buildFromRM header rows

/-- County-filtered rows paired with their resolved date; rows whose date is
missing are dropped (`dropna(subset=["Date"])`), never defaulted. -/
def datedRows (t : Table) : List (List Cell × CDate) :=
  ((countyFilteredRows t).zip (build_date t.header (countyFilteredRows t))).filterMap
    fun p => p.2.map fun d => (p.1, d)

/-- The column list after `load_all` has appended the `Date` column and,
when absent, a synthesized `Report_Month` column. -/
def extHeader (t : Table) : List String :=
  t.header ++ ["Date"] ++ (if t.header.contains "Report_Month" then [] else ["Report_Month"])

/-- `Date.dt.strftime("%b %Y")`, e.g. `"Sep 2025"`. -/
def strftimeBY (d : CDate) : String :=
  ⟨(monthAbbrevs.getD (d.month - 1) "").toList ++ ' ' :: Nat.toDigits 10 d.year⟩

/-- The per-file part of `load_all` after a table with a `County_Name`
column was read: sanitize counties, resolve and require dates, synthesize
`Report_Month` when the column is absent, rename metric cells, coerce every
found metric column with `to_numeric`, and melt to long form dropping
missing values. `pd.melt` stacks one block per value column, in
`found_metrics` order. -/
def processTable (metrics : List String) (t : Table) : List LongRow :=
  let header3 := (map_metric_columns metrics ⟨extHeader t, t.rows⟩).header
  let found := metrics.filter fun m => header3.contains m
  let hasRM := t.header.contains "Report_Month"
  let rmi := t.header.indexOf "Report_Month"
  (found.map fun m =>
    let mi := header3.indexOf m
    (datedRows t).filterMap fun p =>
      (toNumeric (pyStr (cellAt p.1 mi))).map fun v =>
        { Date := p.2
          Report_Month := if hasRM then cellAt p.1 rmi else some (strftimeBY p.2)
          County_Name := countyName p.1 (countyIdx t)
          Metric := m
          Value := v }).flatten

/-- The per-file guards of `load_all`: a file resolves to a table only when
it was found, some header candidate was accepted, the frame is non-empty and
a `County_Name` column is present; otherwise the file contributes nothing. -/
def tableOf (f : String × Option Grid) : Option Table :=
  match f.2 with
  | none => none
  | some g =>
    match read_cw_csv g with
    | none => none
    | some (_, t) =>
      if t.rows.isEmpty || t.header.isEmpty || !t.header.contains "County_Name"
      then none else some t

/-- The log lines one file contributes: `"missing"` for an unresolved path,
the header-row line for a successful read, nothing otherwise. -/
def fileLog (f : String × Option Grid) : List String :=
  match f.2 with
  | none => [f.1 ++ ": missing"]
  | some g =>
    match read_cw_csv g with
    | some (h, _) => [f.1 ++ ": read with header=" ++ natStr h]
    | none => []

/-- The long-form frame one file contributes. -/
def fileFrame (metrics : List String) (f : String × Option Grid) : List LongRow :=
  match tableOf f with
  | some t => processTable metrics t
  | none => []

/-- `pd.concat(frames)`: all per-file frames in configured file-list order. -/
def allRows (files : List (String × Option Grid)) (metrics : List String) : List LongRow :=
  (files.map (fileFrame metrics)).flatten

/-- Stable insertion of a row into a date-sorted list (ties keep the
existing rows first). -/
def insertByDate (x : LongRow) : List LongRow → List LongRow
  | [] => [x]
  | y :: ys => if dateKey x.Date ≤ dateKey y.Date then x :: y :: ys else y :: insertByDate x ys

/-- `sort_values("Date")` modelled as an insertion sort by date. A model
must fix some concrete order; this one is stable, but pandas' default sort
kind (`quicksort`) is documented as not stable, so the program itself fixes
no particular relative order among rows of equal date. No theorem below
depends on this model's ordering of date ties. -/
def sortByDate : List LongRow → List LongRow
  | [] => []
  | x :: xs => insertByDate x (sortByDate xs)

/-- `drop_duplicates(subset=["Date", "County_Name", "Metric"],
keep="first")`: keep a row only when its key was not seen earlier. -/
def dedupFirst : List LongRow → List (CDate × String × String) → List LongRow
  | [], _ => []
  | r :: rs, seen =>
    if rowKey r ∈ seen then dedupFirst rs seen else r :: dedupFirst rs (rowKey r :: seen)

/-- `load_all` from `app.py`: read every configured file in order, collect
the per-file long-form frames and log lines, then sort the concatenation by
date and deduplicate keeping the first occurrence per key. -/
def load_all (files : List (String × Option Grid)) (metrics : List String) :
    List LongRow × List String :=
  (dedupFirst (sortByDate (allRows files metrics)) [], (files.map fileLog).flatten)

/-- The configured input file list of `app.py`. -/
def CW_FILE_NAMES : List String :=
  ["15-16.csv", "16-17.csv", "17-18.csv", "18-19.csv", "19-20.csv",
   "20-21.csv", "21-22.csv", "22-23.csv", "23-24.csv", "24-25.csv"]

/-- The configured ordered metric list of `app.py` (`Cell 1` … `Cell 20`). -/
def METRICS_IN_ORDER : List String :=
  ["A. 1. Pending from last month",
   "A. 1a. Item 5 from last month",
   "A. 1b. Adjustment",
   "A. 2. Applications received",
   "A. 2a. Applications",
   "A. 2b. Restoration",
   "A. 3. Total/month",
   "A. 4. Disposed of",
   "A. 4a. Approved",
   "A. 4b. Denied",
   "A. 4b1. Denied/Diversion",
   "A. 4c. Other dispositions",
   "A. 5. Pending at end of month",
   "B. 6. Cases brought forward",
   "B. 6a. Item 10 last month",
   "B. 6b. Adjustment",
   "B. 7. Added during month",
   "B. 8. Total cases open",
   "B. 9. Cases receiving cash grant",
   "B. 10. Cases carried forward"]

/-! ### Concrete inputs used by the claim-level scenarios -/

/-- C1 scenario input: Date_Code `"SEP25"`, County `"Alpha"`, Cell 1 `"1,234"`. -/
def c1gridComma : Grid :=
  [[some "Date_Code", some "County_Name", some "Cell 1"],
   [some "SEP25", some "Alpha", some "1,234"]]

/-- C1 scenario input with the thousands separator removed. -/
def c1gridPlain : Grid :=
  [[some "Date_Code", some "County_Name", some "Cell 1"],
   [some "SEP25", some "Alpha", some "1234"]]

/-- C2 scenario input: only numeric `Month` and `Year` date columns. -/
def c2grid : Grid :=
  [[some "Month", some "Year", some "County_Name", some "Cell 1"],
   [some "9", some "2025", some "Alpha", some "5"]]

/-- C3 failing input, file 1: fifteen counties all dated `"SEP25"`, the
duplicated county `"Dup"` (value 1) among them. The file is long enough
that, concatenated with file 2, the equal-date block exceeds the
small-sort cutoff of numpy's quicksort. -/
def c3fileA : Grid :=
  [[some "Date_Code", some "County_Name", some "Cell 1"],
   [some "SEP25", some "CA", some "1"],
   [some "SEP25", some "CB", some "1"],
   [some "SEP25", some "CC", some "1"],
   [some "SEP25", some "CD", some "1"],
   [some "SEP25", some "CE", some "1"],
   [some "SEP25", some "CF", some "1"],
   [some "SEP25", some "CG", some "1"],
   [some "SEP25", some "Dup", some "1"],
   [some "SEP25", some "CH", some "1"],
   [some "SEP25", some "CI", some "1"],
   [some "SEP25", some "CJ", some "1"],
   [some "SEP25", some "CK", some "1"],
   [some "SEP25", some "CL", some "1"],
   [some "SEP25", some "CM", some "1"],
   [some "SEP25", some "CN", some "1"]]

/-- C3 failing input, file 2: the same key (2025-09-01, `"Dup"`, Cell 1)
again, with a different value, plus one filler county. -/
def c3fileB : Grid :=
  [[some "Date_Code", some "County_Name", some "Cell 1"],
   [some "SEP25", some "Dup", some "2"],
   [some "SEP25", some "CZ", some "3"]]

/-- C3 failing input: the two files in configured order. -/
def c3bugFiles : List (String × Option Grid) :=
  [("15-16.csv", some c3fileA), ("16-17.csv", some c3fileB)]

/-- C4 witness input: a one-column table labelled `"Cell 1"`. -/
def c4table : Table := ⟨["Cell 1"], [[some "7"]]⟩

/-- C5 counterexample input: an upper-cased `"STATEWIDE"` county row. -/
def c5grid : Grid :=
  [[some "Date_Code", some "County_Name", some "Cell 1"],
   [some "SEP25", some "STATEWIDE", some "7"]]

/-- C6 counterexample input: Cell 1 holds `"12*"` (digits plus the
de-identification marker). -/
def c6grid : Grid :=
  [[some "Date_Code", some "County_Name", some "Cell 1"],
   [some "SEP25", some "Alpha", some "12*"]]

/-- C7 witness input: one well-formed row dated from `Date_Code`. -/
def c7grid : Grid :=
  [[some "Date_Code", some "County_Name", some "Cell 1"],
   [some "OCT25", some "Gamma", some "3"]]

/-- C8 input: no header candidate ever mentions a county column. -/
def c8gridBad : Grid :=
  [[some "A", some "B"],
   [some "1", some "2"]]

/-- C8 input: a readable companion file processed after the unreadable one. -/
def c8gridGood : Grid :=
  [[some "Date_Code", some "County_Name", some "Cell 1"],
   [some "NOV25", some "Delta", some "8"]]

/-- C9 counterexample input: a `Report_Month` column exists but its cell is
missing; the date comes from `Date_Code`. -/
def c9grid : Grid :=
  [[some "Date_Code", some "Report_Month", some "County_Name", some "Cell 1"],
   [some "SEP25", none, some "Alpha", some "7"]]

/-- C9 witness input: a normalized table with no `Report_Month` column. -/
def c9table : Table :=
  ⟨["Date_Code", "County_Name", "Cell 1"],
   [[some "DEC25", some "Epsilon", some "9"]]⟩

/-- Modelled from the spec: "strip a de-identification marker character
(`*`) before numeric coercion". No such stripping step exists in
`src/app.py` (`load_all` passes the raw value straight to `to_numeric`);
this definition follows the spec's words so the claimed behaviour can be
compared with the code's. -/
def stripDeidMarker (s : String) : String := ⟨s.toList.filter fun c => c != '*'⟩

/-- C10 scenario input: the county cell of the data row is missing. -/
def c10grid : Grid :=
  [[some "Date_Code", some "County_Name", some "Cell 1"],
   [some "SEP25", none, some "7"]]

/-! ### Sorting and deduplication: membership facts -/

/-- Membership through stable insertion. -/
theorem mem_insertByDate {x r : LongRow} {l : List LongRow} :
    r ∈ insertByDate x l ↔ r = x ∨ r ∈ l := by
  induction l with
  | nil => simp [insertByDate]
  | cons y ys ih =>
    by_cases h : dateKey x.Date ≤ dateKey y.Date
    · simp [insertByDate, h]
    · simp only [insertByDate, if_neg h, List.mem_cons, ih]
      tauto

/-- Membership through the date sort. -/
theorem mem_sortByDate {r : LongRow} {l : List LongRow} : r ∈ sortByDate l ↔ r ∈ l := by
  induction l with
  | nil => simp [sortByDate]
  | cons x xs ih => simp [sortByDate, mem_insertByDate, ih]


/-- Deduplication only removes rows. -/
theorem dedupFirst_sublist (l : List LongRow) (seen : List (CDate × String × String)) :
    (dedupFirst l seen).Sublist l := by
  induction l generalizing seen with
  | nil => simp [dedupFirst]
  | cons r rs ih =>
    rw [dedupFirst]
    by_cases h : rowKey r ∈ seen
    · rw [if_pos h]
      exact (ih seen).cons r
    · rw [if_neg h]
      exact (ih _).cons₂ r


/-! ### Tracing a final row back through the pipeline -/

/-- A row of the final Dataset comes from the frame of some configured file
whose guards all passed. -/
theorem mem_load_all {files : List (String × Option Grid)} {metrics : List String}
    {r : LongRow} (h : r ∈ (load_all files metrics).1) :
    ∃ f ∈ files, ∃ t, tableOf f = some t ∧ r ∈ processTable metrics t := by
  have h0 : r ∈ dedupFirst (sortByDate (allRows files metrics)) [] := h
  have h1 : r ∈ sortByDate (allRows files metrics) := (dedupFirst_sublist _ _).subset h0
  have h2 : r ∈ allRows files metrics := mem_sortByDate.1 h1
  unfold allRows at h2
  rw [List.mem_flatten] at h2
  obtain ⟨fr, hfr, hrf⟩ := h2
  rw [List.mem_map] at hfr
  obtain ⟨f, hf, rfl⟩ := hfr
  unfold fileFrame at hrf
  cases ht : tableOf f with
  | none =>
    rw [ht] at hrf
    simp at hrf
  | some t =>
    rw [ht] at hrf
    exact ⟨f, hf, t, ht, hrf⟩

/-- A melted row determines its originating dated row and its fields. -/
theorem mem_processTable {metrics : List String} {t : Table} {r : LongRow}
    (h : r ∈ processTable metrics t) :
    ∃ p ∈ datedRows t,
      r.Date = p.2 ∧
      r.County_Name = countyName p.1 (countyIdx t) ∧
      r.Report_Month = (if t.header.contains "Report_Month"
        then cellAt p.1 (t.header.indexOf "Report_Month")
        else some (strftimeBY p.2)) := by
  simp only [processTable, List.mem_flatten, List.mem_map] at h
  obtain ⟨blk, ⟨m, hm, rfl⟩, hr⟩ := h
  rw [List.mem_filterMap] at hr
  obtain ⟨p, hp, he⟩ := hr
  rw [Option.map_eq_some'] at he
  obtain ⟨v, hv, rfl⟩ := he
  exact ⟨p, hp, rfl, rfl, rfl⟩

/-- A dated row is a county-filtered row paired with a parsed date from the
very series `build_date` produced. -/
theorem mem_datedRows {t : Table} {p : List Cell × CDate} (h : p ∈ datedRows t) :
    p.1 ∈ countyFilteredRows t ∧
    some p.2 ∈ build_date t.header (countyFilteredRows t) := by
  unfold datedRows at h
  rw [List.mem_filterMap] at h
  obtain ⟨q, hq, he⟩ := h
  rcases ho : q.2 with _ | d
  · rw [ho] at he
    simp at he
  · rw [ho] at he
    simp only [Option.map_some', Option.some.injEq] at he
    obtain rfl : (q.1, d) = p := he
    obtain ⟨hq1, hq2⟩ := List.of_mem_zip (show (q.1, q.2) ∈ _ from hq)
    exact ⟨hq1, ho ▸ hq2⟩

/-- Every melted row's county passed the county sanitizer. -/
theorem processTable_countyKeep {metrics : List String} {t : Table} {r : LongRow}
    (h : r ∈ processTable metrics t) :
    countyKeep r.County_Name = true := by
  obtain ⟨p, hp, _, hcn, _⟩ := mem_processTable h
  have h1 := (mem_datedRows hp).1
  rw [countyFilteredRows, List.mem_filter] at h1
  rw [hcn]
  exact h1.2

/-- Every melted row's date is an entry of the series `build_date` chose. -/
theorem processTable_date {metrics : List String} {t : Table} {r : LongRow}
    (h : r ∈ processTable metrics t) :
    some r.Date ∈ build_date t.header (countyFilteredRows t) := by
  obtain ⟨p, hp, hd, _, _⟩ := mem_processTable h
  rw [hd]
  exact (mem_datedRows hp).2

/-- Without a `Report_Month` column, every melted row's report month is the
synthesized `"%b %Y"` rendering of its resolved date. -/
theorem processTable_rm {metrics : List String} {t : Table} {r : LongRow}
    (hn : t.header.contains "Report_Month" = false)
    (h : r ∈ processTable metrics t) :
    r.Report_Month = some (strftimeBY r.Date) := by
  obtain ⟨p, hp, hd, _, hrm⟩ := mem_processTable h
  have hcon : ¬t.header.contains "Report_Month" = true := by
    rw [hn]
    simp
  rw [hrm, if_neg hcon, hd]

/-! ### The date reconciler's source selection -/

/-- An absent column has no index. -/
theorem indexOf?_eq_none_of_not_mem {a : String} {l : List String} (h : a ∉ l) :
    l.indexOf? a = none := by
  rw [List.indexOf?_eq_none_iff]
  intro x hx hbeq
  exact h ((show x = a by simpa using hbeq) ▸ hx)

/-- With neither `Date_Code` nor `Report_Month`, `build_date` resolves no
date at all: there is no `Month`+`Year` (or any other) fallback source. -/
theorem build_date_none {header : List String} {rows : List (List Cell)}
    (h1 : "Date_Code" ∉ header) (h2 : "Report_Month" ∉ header) :
    build_date header rows = rows.map fun _ => none := by
  unfold build_date
  rw [indexOf?_eq_none_of_not_mem h1]
  show buildFromRM header rows = _
  unfold buildFromRM
  rw [indexOf?_eq_none_of_not_mem h2]

/-- If the Report_Month arm produced any date, it is exactly the parsed
`Report_Month` series. -/
theorem buildFromRM_source {header : List String} {rows : List (List Cell)} {d : CDate}
    (h : some d ∈ buildFromRM header rows) :
    ∃ i, header.indexOf? "Report_Month" = some i ∧
      buildFromRM header rows = parseSeries rows i := by
  unfold buildFromRM at h ⊢
  split at h
  next i hi =>
    rw [hi]
    simp only [] at h
    split at h
    next hp => exact ⟨i, rfl, by simp only []; rw [if_pos hp]⟩
    next hp =>
      simp only [List.mem_map] at h
      obtain ⟨-, -, hfalse⟩ := h
      exact absurd hfalse (by simp)
  next hi =>
    simp only [List.mem_map] at h
    obtain ⟨-, -, hfalse⟩ := h
    exact absurd hfalse (by simp)

/-- If `build_date` produced any date, the whole series is the parse of one
recognized source column — `Date_Code` or `Report_Month` — and that source
parsed at least the row in hand. -/
theorem build_date_source {header : List String} {rows : List (List Cell)} {d : CDate}
    (h : some d ∈ build_date header rows) :
    ∃ i, (header.indexOf? "Date_Code" = some i ∨ header.indexOf? "Report_Month" = some i) ∧
      build_date header rows = parseSeries rows i := by
  unfold build_date at h ⊢
  split at h
  next i hi =>
    rw [hi]
    simp only [] at h
    split at h
    next hp => exact ⟨i, Or.inl rfl, by simp only []; rw [if_pos hp]⟩
    next hp =>
      obtain ⟨j, hio, he⟩ := buildFromRM_source h
      exact ⟨j, Or.inr hio, by simp only []; rw [if_neg hp]; exact he⟩
  next hi =>
    rw [hi]
    obtain ⟨j, hio, he⟩ := buildFromRM_source h
    exact ⟨j, Or.inr hio, he⟩

/-! ### Character and label-cleaning facts for the metric-cell mapper -/

/-- Lower-casing fixes decimal digits. -/
theorem toLower_of_isDigit {c : Char} (h : c.isDigit = true) : c.toLower = c := by
  simp only [Char.isDigit, Bool.and_eq_true, decide_eq_true_eq] at h
  have h2 : c.val.toNat ≤ 57 := UInt32.toNat_le_of_le (by decide) h.2
  unfold Char.toLower
  rw [if_neg]
  rintro ⟨h3, -⟩
  have he : Char.toNat c = c.val.toNat := rfl
  omega

/-- A digit is not one of the stripped whitespace characters. -/
theorem isSpaceChar_of_isDigit {c : Char} (h : c.isDigit = true) : isSpaceChar c = false := by
  by_contra hne
  rw [Bool.not_eq_false] at hne
  unfold isSpaceChar at hne
  simp only [Bool.or_eq_true, beq_iff_eq] at hne
  rcases hne with ((((h1 | h1) | h1) | h1) | h1) | h1 <;> subst h1 <;> exact absurd h (by decide)

/-- A digit is not the byte-order marker. -/
theorem bom_of_isDigit {c : Char} (h : c.isDigit = true) : (c == '﻿') = false := by
  by_contra hne
  rw [Bool.not_eq_false, beq_iff_eq] at hne
  subst hne
  exact absurd h (by decide)

/-- A digit is not lower-cased to the letter `c`. -/
theorem toLower_ne_c_of_isDigit {c : Char} (h : c.isDigit = true) : c.toLower ≠ 'c' := by
  rw [toLower_of_isDigit h]
  rintro rfl
  exact absurd h (by decide)

/-- `dropWhile` keeps a list whose head fails the predicate. -/
theorem dropWhile_eq_self_of_head {p : Char → Bool} {l : List Char}
    (h : ∀ c, l.head? = some c → p c = false) : l.dropWhile p = l := by
  cases l with
  | nil => rfl
  | cons a t =>
    rw [List.dropWhile_cons, if_neg]
    simp [h a rfl]

/-- The last element of a list is a member. -/
theorem mem_of_getLast? {l : List Char} {c : Char} (h : l.getLast? = some c) : c ∈ l := by
  rw [← List.head?_reverse] at h
  have hm : c ∈ l.reverse := by
    cases hr : l.reverse with
    | nil => rw [hr] at h; cases h
    | cons a t =>
      rw [hr] at h
      cases h
      exact List.mem_cons_self _ _
  simpa using hm

/-- Stripping leaves a list alone when neither end is whitespace. -/
theorem pyStripList_eq_self {l : List Char}
    (h1 : ∀ c, l.head? = some c → isSpaceChar c = false)
    (h2 : ∀ c, l.getLast? = some c → isSpaceChar c = false) :
    pyStripList l = l := by
  unfold pyStripList
  rw [dropWhile_eq_self_of_head h1]
  rw [dropWhile_eq_self_of_head fun c hc => h2 c (by rwa [List.head?_reverse] at hc)]
  exact List.reverse_reverse l

/-- Label cleaning leaves a label alone when its first character is neither
whitespace nor the byte-order marker and its last is not whitespace. -/
theorem norm_colList_eq_self {l : List Char}
    (h1 : ∀ c, l.head? = some c → isSpaceChar c = false ∧ (c == '﻿') = false)
    (h2 : ∀ c, l.getLast? = some c → isSpaceChar c = false) :
    norm_colList l = l := by
  unfold norm_colList lstripBom
  rw [pyStripList_eq_self (fun c hc => (h1 c hc).1) h2]
  rw [dropWhile_eq_self_of_head fun c hc => (h1 c hc).2]
  exact pyStripList_eq_self (fun c hc => (h1 c hc).1) h2

/-- The head of a list is a member. -/
theorem mem_of_head? {l : List Char} {c : Char} (h : l.head? = some c) : c ∈ l := by
  cases l with
  | nil => cases h
  | cons a t =>
    cases h
    exact List.mem_cons_self _ _

/-- Cleaning a label that is four prefix characters, a space and then a
digit string changes nothing. -/
theorem norm_colList_prefix_digits {ds : List Char} (hne : ds ≠ [])
    (hd : ds.all Char.isDigit = true) (p1 p2 p3 p4 : Char)
    (hp1 : isSpaceChar p1 = false ∧ (p1 == '﻿') = false) :
    norm_colList (p1 :: p2 :: p3 :: p4 :: ' ' :: ds) = p1 :: p2 :: p3 :: p4 :: ' ' :: ds := by
  obtain ⟨a, t, rfl⟩ := List.exists_cons_of_ne_nil hne
  apply norm_colList_eq_self
  · intro c hc
    cases hc
    exact hp1
  · intro c hc
    simp only [List.getLast?_cons_cons] at hc
    exact isSpaceChar_of_isDigit (List.all_eq_true.1 hd c (mem_of_getLast? hc))

/-- Cleaning a bare digit label changes nothing. -/
theorem norm_colList_digits {ds : List Char} (hne : ds ≠ [])
    (hd : ds.all Char.isDigit = true) :
    norm_colList ds = ds := by
  apply norm_colList_eq_self
  · intro c hc
    have hdc := List.all_eq_true.1 hd c (mem_of_head? hc)
    exact ⟨isSpaceChar_of_isDigit hdc, bom_of_isDigit hdc⟩
  · intro c hc
    exact isSpaceChar_of_isDigit (List.all_eq_true.1 hd c (mem_of_getLast? hc))

/-- The mapper's regex on a label `"<Cell-prefix> <digits>"`: it recognizes
the digits regardless of the prefix's letter case. -/
theorem cellIdList_cell_label {ds : List Char} (hne : ds ≠ [])
    (hd : ds.all Char.isDigit = true) (p1 p2 p3 p4 : Char)
    (hp1 : isSpaceChar p1 = false ∧ (p1 == '﻿') = false)
    (hlow : [p1, p2, p3, p4].map Char.toLower = ['c', 'e', 'l', 'l']) :
    cellIdList (p1 :: p2 :: p3 :: p4 :: ' ' :: ds) = some (digitsVal ds) := by
  unfold cellIdList
  simp only []
  rw [norm_colList_prefix_digits hne hd p1 p2 p3 p4 hp1]
  have ht : (p1 :: p2 :: p3 :: p4 :: ' ' :: ds).take 4 = [p1, p2, p3, p4] := rfl
  rw [ht, if_pos hlow]
  have hb : ((p1 :: p2 :: p3 :: p4 :: ' ' :: ds).drop 4).dropWhile isSpaceChar = ds := by
    show (' ' :: ds).dropWhile isSpaceChar = ds
    rw [List.dropWhile_cons, if_pos (by decide)]
    apply dropWhile_eq_self_of_head
    intro c hc
    exact isSpaceChar_of_isDigit (List.all_eq_true.1 hd c (mem_of_head? hc))
  rw [hb, if_pos ⟨hne, hd⟩]

/-- The mapper's regex on a bare digit label: the `Cell` prefix is optional,
and a digit string cannot spell `cell`, so the whole label is the number. -/
theorem cellIdList_bare_label {ds : List Char} (hne : ds ≠ [])
    (hd : ds.all Char.isDigit = true) :
    cellIdList ds = some (digitsVal ds) := by
  unfold cellIdList
  simp only []
  rw [norm_colList_digits hne hd]
  have hcond : ¬(ds.take 4).map Char.toLower = ['c', 'e', 'l', 'l'] := by
    intro hcontra
    obtain ⟨a, t, rfl⟩ := List.exists_cons_of_ne_nil hne
    rw [List.take_succ_cons, List.map_cons] at hcontra
    have ha : a.isDigit = true := List.all_eq_true.1 hd a (List.mem_cons_self _ _)
    injection hcontra with hc1 hc2
    exact toLower_ne_c_of_isDigit ha hc1
  rw [if_neg hcond, if_pos ⟨hne, hd⟩]

/-- `cellId` on an explicitly-given character list. -/
theorem cellId_mk (cs : List Char) : cellId ⟨cs⟩ = cellIdList cs := rfl

/-- In-range cell numbers rename to the corresponding metric. -/
theorem renameMetric_of_cellId_in {metrics : List String} {lbl : String} {k : Nat}
    (hc : cellId lbl = some k) (h1 : 1 ≤ k) (h2 : k ≤ metrics.length) :
    renameMetric metrics lbl = (metrics.get? (k - 1)).getD lbl := by
  unfold renameMetric
  rw [hc]
  simp only []
  rw [if_pos ⟨h1, h2⟩]

/-- Out-of-range cell numbers (`0`, or past the metric list) rename to
nothing: the label is untouched. -/
theorem renameMetric_of_cellId_out {metrics : List String} {lbl : String} {k : Nat}
    (hc : cellId lbl = some k) (h : k = 0 ∨ metrics.length < k) :
    renameMetric metrics lbl = lbl := by
  unfold renameMetric
  rw [hc]
  simp only []
  rw [if_neg]
  rintro ⟨h1, h2⟩
  rcases h with h | h <;> omega

/-! ### The de-identification marker under numeric coercion -/

/-- A character failing the predicate survives `dropWhile`. -/
theorem mem_dropWhile_of_neg {p : Char → Bool} {c : Char} {l : List Char}
    (hc : c ∈ l) (hp : p c = false) : c ∈ l.dropWhile p := by
  induction l with
  | nil => cases hc
  | cons a t ih =>
    rw [List.dropWhile_cons]
    by_cases ha : p a = true
    · rw [if_pos ha]
      rcases List.mem_cons.1 hc with rfl | hc2
      · rw [hp] at ha
        cases ha
      · exact ih hc2
    · rw [if_neg ha]
      exact hc

/-- A non-whitespace character survives Python stripping. -/
theorem mem_pyStripList {c : Char} {l : List Char}
    (hc : c ∈ l) (hp : isSpaceChar c = false) : c ∈ pyStripList l := by
  unfold pyStripList
  have h1 : c ∈ l.dropWhile isSpaceChar := mem_dropWhile_of_neg hc hp
  have h2 : c ∈ (l.dropWhile isSpaceChar).reverse := List.mem_reverse.2 h1
  exact List.mem_reverse.2 (mem_dropWhile_of_neg h2 hp)

/-- `splitChar` always returns at least one piece. -/
theorem splitChar_ne_nil (sep : Char) (l : List Char) : splitChar sep l ≠ [] := by
  cases l with
  | nil => simp [splitChar]
  | cons a t =>
    rcases h : splitChar sep t with _ | ⟨p, ps⟩ <;>
      simp [splitChar, h] <;> split <;> simp

/-- Unfolding `splitChar` over a cons cell. -/
theorem splitChar_cons {sep : Char} (a : Char) {t p : List Char} {ps : List (List Char)}
    (hs : splitChar sep t = p :: ps) :
    splitChar sep (a :: t) = if a == sep then [] :: p :: ps else (a :: p) :: ps := by
  unfold splitChar
  rw [hs]

/-- A non-separator character lands in one of the split pieces. -/
theorem mem_splitChar (sep : Char) {c : Char} {l : List Char} (hc : c ∈ l) (hne : ¬c = sep) :
    ∃ p ∈ splitChar sep l, c ∈ p := by
  induction l with
  | nil => cases hc
  | cons a t ih =>
    rcases hs : splitChar sep t with _ | ⟨p, ps⟩
    · exact absurd hs (splitChar_ne_nil sep t)
    · rw [splitChar_cons a hs]
      rcases List.mem_cons.1 hc with rfl | hc2
      · rw [if_neg (by simp [hne])]
        exact ⟨c :: p, List.mem_cons_self _ _, List.mem_cons_self _ _⟩
      · obtain ⟨q, hq, hcq⟩ := ih hc2
        rw [hs] at hq
        by_cases ha : (a == sep) = true
        · rw [if_pos ha]
          exact ⟨q, List.mem_cons_of_mem _ hq, hcq⟩
        · rw [if_neg ha]
          rcases List.mem_cons.1 hq with rfl | hq2
          · exact ⟨a :: q, List.mem_cons_self _ _, List.mem_cons_of_mem _ hcq⟩
          · exact ⟨q, List.mem_cons_of_mem _ hq2, hcq⟩

/-- A mantissa containing the marker `*` never parses. -/
theorem parseMantissa_no_star {m : List Char} (h : '*' ∈ m) : parseMantissa m = none := by
  rcases ho : parseMantissa m with _ | v
  · rfl
  exfalso
  unfold parseMantissa at ho
  obtain ⟨q, hq, hcq⟩ := mem_splitChar '.' h (by decide)
  split at ho
  next ip heq =>
    split at ho
    next hcond =>
      rw [heq] at hq
      have hqe : q = ip := by simpa using hq
      subst hqe
      exact absurd (List.all_eq_true.1 hcond.2 '*' hcq) (by decide)
    next => exact Option.noConfusion ho
  next ip fp heq =>
    split at ho
    next hcond =>
      rw [heq] at hq
      rcases List.mem_cons.1 hq with rfl | hq2
      · exact absurd (List.all_eq_true.1 hcond.2.1 '*' hcq) (by decide)
      · have hqe : q = fp := by simpa using hq2
        subst hqe
        exact absurd (List.all_eq_true.1 hcond.2.2 '*' hcq) (by decide)
    next => exact Option.noConfusion ho
  next => exact Option.noConfusion ho

/-- An exponent containing the marker `*` never parses. -/
theorem parseExpPart_no_star {ex : List Char} (h : '*' ∈ ex) : parseExpPart ex = none := by
  rcases ho : parseExpPart ex with _ | v
  · rfl
  exfalso
  cases ex with
  | nil => exact Option.noConfusion ho
  | cons a r =>
    simp only [parseExpPart] at ho
    by_cases hp : (a == '+') = true
    · rw [if_pos hp] at ho
      split at ho
      next hcond =>
        rcases List.mem_cons.1 h with he | h2
        · rw [← he] at hp
          exact absurd hp (by decide)
        · exact absurd (List.all_eq_true.1 hcond.2 '*' h2) (by decide)
      next => exact Option.noConfusion ho
    · rw [if_neg hp] at ho
      by_cases hm : (a == '-') = true
      · rw [if_pos hm] at ho
        split at ho
        next hcond =>
          rcases List.mem_cons.1 h with he | h2
          · rw [← he] at hm
            exact absurd hm (by decide)
          · exact absurd (List.all_eq_true.1 hcond.2 '*' h2) (by decide)
        next => exact Option.noConfusion ho
      · rw [if_neg hm] at ho
        split at ho
        next hcond => exact absurd (List.all_eq_true.1 hcond '*' h) (by decide)
        next => exact Option.noConfusion ho

/-- Any value containing the de-identification marker `*` fails numeric
coercion outright: the pipeline never strips the marker first. -/
theorem toNumeric_no_star {s : String} (h : '*' ∈ s.toList) : toNumeric s = none := by
  rcases ho : toNumeric s with _ | v
  · rfl
  exfalso
  unfold toNumeric at ho
  simp only [] at ho
  have h1 : '*' ∈ pyStripList s.toList := mem_pyStripList h (by decide)
  have h2 : '*' ∈ (if (pyStripList s.toList).head? = some '+' ∨
      (pyStripList s.toList).head? = some '-' then (pyStripList s.toList).tail
      else pyStripList s.toList) := by
    split
    next hsgn =>
      cases hl : pyStripList s.toList with
      | nil =>
        rw [hl] at h1
        cases h1
      | cons a t =>
        rw [hl] at h1 hsgn
        have hna : ¬ ('*' = a) := by
          rcases hsgn with hs1 | hs1 <;>
          · rw [List.head?_cons] at hs1
            injection hs1 with hs2
            subst hs2
            decide
        rcases List.mem_cons.1 h1 with he | h2a
        · exact absurd he hna
        · exact h2a
    next => exact h1
  have h3 : '*' ∈ (if (pyStripList s.toList).head? = some '+' ∨
      (pyStripList s.toList).head? = some '-' then (pyStripList s.toList).tail
      else pyStripList s.toList).map Char.toLower :=
    List.mem_map.2 ⟨'*', h2, by decide⟩
  obtain ⟨q, hq, hcq⟩ := mem_splitChar 'e' h3 (by decide)
  split at ho
  next m heq =>
    rw [heq] at hq
    have hqe : q = m := by simpa using hq
    subst hqe
    rw [parseMantissa_no_star hcq] at ho
    exact Option.noConfusion ho
  next m ex heq =>
    rw [heq] at hq
    rcases List.mem_cons.1 hq with rfl | hq2
    · rw [parseMantissa_no_star hcq] at ho
      exact Option.noConfusion ho
    · have hqe : q = ex := by simpa using hq2
      subst hqe
      rw [parseExpPart_no_star hcq] at ho
      rcases hm : parseMantissa m with _ | p
      · rw [hm] at ho
        exact Option.noConfusion ho
      · rw [hm] at ho
        exact Option.noConfusion ho
  next => exact Option.noConfusion ho

/-! ### The claims -/

/-- C1, counterexample: on the claimed scenario row — Date_Code `"SEP25"`,
County `"Alpha"`, Cell 1 value `"1,234"` — the pipeline produces no
normalized row at all: `to_numeric` has no thousands-separator handling, so
`"1,234"` coerces to missing and the melted row is dropped, contradicting
the claimed output row with Value 1234. -/
theorem C1_counterexample :
    (load_all [("15-16.csv", some c1gridComma)] METRICS_IN_ORDER).1 = [] := by decide

/-- C1, amended: with the Cell 1 value written without the thousands
separator (`"1234"`), the scenario behaves exactly as claimed: one
normalized row with Date 2025-09-01, County `"Alpha"`, Metric the first
configured metric, and Value 1234. -/
theorem C1_amended_scenario :
    load_all [("15-16.csv", some c1gridPlain)] METRICS_IN_ORDER =
      ([{ Date := ⟨2025, 9, 1⟩, Report_Month := some "Sep 2025", County_Name := "Alpha",
          Metric := "A. 1. Pending from last month", Value := 1234 }],
       ["15-16.csv: read with header=0"]) := by decide

/-- C2, counterexample: a table with numeric `Month` and `Year` columns but
neither `Date_Code` nor `Report_Month` yields an empty Dataset — the
claimed third source (combined Month+Year with defaults 1 and 2000) does
not exist in `build_date`, so no date resolves and every row is dropped. -/
theorem C2_counterexample :
    (load_all [("16-17.csv", some c2grid)] METRICS_IN_ORDER).1 = [] := by decide

/-- C2, amended: the date reconciler tries `Date_Code` and then
`Report_Month` only; for every table lacking both, every row's date is
unresolved (missing), never composed from `Month`+`Year` and never
defaulted. -/
theorem C2_amended (header : List String) (rows : List (List Cell))
    (h1 : "Date_Code" ∉ header) (h2 : "Report_Month" ∉ header) :
    build_date header rows = rows.map fun _ => none :=
  build_date_none h1 h2

/-- C2, witness: the amended statement evaluated on a concrete
Month/Year-only table. -/
theorem C2_amended_witness :
    build_date ["Month", "Year", "County_Name"] [[some "9", some "2025", some "Alpha"]] =
      [none] :=
  (C2_amended ["Month", "Year", "County_Name"] [[some "9", some "2025", some "Alpha"]]
    (by decide) (by decide)).trans rfl

/-- C3, the failing input evaluated on the code: the two configured files
produce a 17-row concatenation, every row dated 2025-09-01, holding exactly
two rows for the duplicated key (2025-09-01, "Dup", first metric) — file
1's Value-1 row before file 2's Value-2 row in file-list order. Everything
up to this point the program determines; which of the two survives
`drop_duplicates(keep="first")` is then decided by how `sort_values("Date")`
permutes a 17-row block of equal dates, and pandas' default quicksort does
not keep ties in order, so the claimed earlier-file precedence is not
guaranteed by the code. -/
theorem C3_failing_input :
    (allRows c3bugFiles METRICS_IN_ORDER).map (fun r => r.Date) =
      List.replicate 17 ⟨2025, 9, 1⟩ ∧
    (allRows c3bugFiles METRICS_IN_ORDER).filter
        (fun x => decide (rowKey x =
          (⟨2025, 9, 1⟩, "Dup", "A. 1. Pending from last month"))) =
      [{ Date := ⟨2025, 9, 1⟩, Report_Month := some "Sep 2025", County_Name := "Dup",
         Metric := "A. 1. Pending from last month", Value := 1 },
       { Date := ⟨2025, 9, 1⟩, Report_Month := some "Sep 2025", County_Name := "Dup",
         Metric := "A. 1. Pending from last month", Value := 2 }] :=
  ⟨by decide, by decide⟩

/-- C4: a column whose cleaned label is `Cell k`, `CELL k`, or the bare
digits `k` with `1 ≤ k ≤ len(metrics)` is renamed in place to
`metrics[k-1]`; for identifier 0 or past the list the column keeps its
original label at its original position, and the mapper never touches the
rows — nothing is dropped. -/
theorem C4_cell_mapping (metrics : List String) (ds : List Char) (t : Table) (i : Nat)
    (hne : ds ≠ []) (hd : ds.all Char.isDigit = true) :
    (1 ≤ digitsVal ds → digitsVal ds ≤ metrics.length →
      ∀ lbl : String,
        lbl = ⟨'C' :: 'e' :: 'l' :: 'l' :: ' ' :: ds⟩ ∨
        lbl = ⟨'C' :: 'E' :: 'L' :: 'L' :: ' ' :: ds⟩ ∨ lbl = ⟨ds⟩ →
        t.header.get? i = some lbl →
        (map_metric_columns metrics t).header.get? i = metrics.get? (digitsVal ds - 1)) ∧
    (digitsVal ds = 0 ∨ metrics.length < digitsVal ds →
      ∀ lbl : String,
        lbl = ⟨'C' :: 'e' :: 'l' :: 'l' :: ' ' :: ds⟩ ∨
        lbl = ⟨'C' :: 'E' :: 'L' :: 'L' :: ' ' :: ds⟩ ∨ lbl = ⟨ds⟩ →
        t.header.get? i = some lbl →
        (map_metric_columns metrics t).header.get? i = some lbl) ∧
    (map_metric_columns metrics t).rows = t.rows := by
  have hcell : ∀ lbl : String,
      lbl = ⟨'C' :: 'e' :: 'l' :: 'l' :: ' ' :: ds⟩ ∨
      lbl = ⟨'C' :: 'E' :: 'L' :: 'L' :: ' ' :: ds⟩ ∨ lbl = ⟨ds⟩ →
      cellId lbl = some (digitsVal ds) := by
    intro lbl hl
    rcases hl with rfl | rfl | rfl
    · rw [cellId_mk]
      exact cellIdList_cell_label hne hd _ _ _ _ ⟨by decide, by decide⟩ (by decide)
    · rw [cellId_mk]
      exact cellIdList_cell_label hne hd _ _ _ _ ⟨by decide, by decide⟩ (by decide)
    · rw [cellId_mk]
      exact cellIdList_bare_label hne hd
  have hmap : ∀ j, (map_metric_columns metrics t).header.get? j =
      (t.header.get? j).map (renameMetric metrics) := by
    intro j
    simp [map_metric_columns, List.get?_map]
  refine ⟨?_, ?_, rfl⟩
  · intro h1 h2 lbl hl hget
    rw [hmap i, hget]
    simp only [Option.map_some']
    rw [renameMetric_of_cellId_in (hcell lbl hl) h1 h2]
    rcases hg : metrics.get? (digitsVal ds - 1) with _ | v
    · rw [List.get?_eq_none] at hg
      omega
    · simp
  · intro hout lbl hl hget
    rw [hmap i, hget]
    simp only [Option.map_some']
    rw [renameMetric_of_cellId_out (hcell lbl hl) hout]

/-- C4, witness: the label `"Cell 1"` maps to the first configured metric. -/
theorem C4_witness :
    (map_metric_columns METRICS_IN_ORDER c4table).header.get? 0 =
      METRICS_IN_ORDER.get? 0 :=
  (C4_cell_mapping METRICS_IN_ORDER ['1'] c4table 0 (by decide) (by decide)).1
    (by decide) (by decide) "Cell 1" (Or.inl (by decide)) (by decide)

/-- C5, counterexample: a row whose county cell is `"STATEWIDE"` survives
into the final Dataset — the filter `ne("Statewide")` is case-sensitive, so
the claimed case-insensitive exclusion does not hold. -/
theorem C5_counterexample :
    (load_all [("17-18.csv", some c5grid)] METRICS_IN_ORDER).1 =
      [{ Date := ⟨2025, 9, 1⟩, Report_Month := some "Sep 2025", County_Name := "STATEWIDE",
         Metric := "A. 1. Pending from last month", Value := 7 }] := by decide

/-- C5, amended: every row of the final Dataset has a county label that is
not exactly `"Statewide"` (case-sensitively) and contains at least one
ASCII letter (hence is non-empty after trimming); rows failing either test
are dropped, but other letter-casings of "Statewide" are retained. -/
theorem C5_amended (files : List (String × Option Grid)) (metrics : List String)
    (r : LongRow) (hr : r ∈ (load_all files metrics).1) :
    r.County_Name ≠ "Statewide" ∧ ∃ c ∈ r.County_Name.toList, c.isAlpha = true := by
  obtain ⟨f, hf, t, ht, hpt⟩ := mem_load_all hr
  have hk := processTable_countyKeep hpt
  unfold countyKeep at hk
  rw [Bool.and_eq_true] at hk
  obtain ⟨hk1, hk2⟩ := hk
  constructor
  · intro he
    rw [he] at hk1
    simp at hk1
  · exact List.any_eq_true.1 hk2

/-- C5, witness: the amended statement at the surviving `"STATEWIDE"` row. -/
theorem C5_witness :
    ("STATEWIDE" : String) ≠ "Statewide" ∧
      ∃ c ∈ ("STATEWIDE" : String).toList, c.isAlpha = true :=
  C5_amended [("17-18.csv", some c5grid)] METRICS_IN_ORDER
    { Date := ⟨2025, 9, 1⟩, Report_Month := some "Sep 2025", County_Name := "STATEWIDE",
      Metric := "A. 1. Pending from last month", Value := 7 } (by decide)

/-- C6, counterexample: the claimed strip-then-coerce behaviour would give
the cell value `"12*"` the number 12, but the pipeline, which never strips
the marker, coerces `"12*"` to missing and produces no row for it. -/
theorem C6_counterexample :
    toNumeric (stripDeidMarker "12*") = some 12 ∧
    (load_all [("18-19.csv", some c6grid)] METRICS_IN_ORDER).1 = [] :=
  ⟨by decide, by decide⟩

/-- C6, amended: the de-identification marker is never stripped; any cell
value still containing `*` simply fails numeric coercion and becomes
absent (so in particular a bare `"*"` is never a valid positive number and,
under the drop-absent melt, contributes no row). -/
theorem C6_amended (v : String) (hv : '*' ∈ v.toList) : toNumeric v = none :=
  toNumeric_no_star hv

/-- C6, witness: the amended statement at the bare marker value `"*"`. -/
theorem C6_witness : toNumeric "*" = none := C6_amended "*" (by decide)

/-- C7: every row of the final Dataset carries a date that is an entry of
the series parsed from one recognized source column (`Date_Code` or
`Report_Month`) of its file — a source under which at least one row parsed
— and rows without a parsed date never reach the Dataset (no default date
exists). -/
theorem C7_no_default_date (files : List (String × Option Grid)) (metrics : List String)
    (r : LongRow) (hr : r ∈ (load_all files metrics).1) :
    ∃ f ∈ files, ∃ t, tableOf f = some t ∧
      ∃ i, (t.header.indexOf? "Date_Code" = some i ∨
            t.header.indexOf? "Report_Month" = some i) ∧
        build_date t.header (countyFilteredRows t) = parseSeries (countyFilteredRows t) i ∧
        some r.Date ∈ build_date t.header (countyFilteredRows t) := by
  obtain ⟨f, hf, t, ht, hpt⟩ := mem_load_all hr
  have hd := processTable_date hpt
  obtain ⟨i, hio, he⟩ := build_date_source hd
  exact ⟨f, hf, t, ht, i, hio, he, hd⟩

/-- C7, witness: the invariant instantiated on a one-file configuration
whose date comes from `Date_Code` (`"OCT25"`). -/
theorem C7_witness :
    ∃ f ∈ [("19-20.csv", some c7grid)], ∃ t, tableOf f = some t ∧
      ∃ i, (t.header.indexOf? "Date_Code" = some i ∨
            t.header.indexOf? "Report_Month" = some i) ∧
        build_date t.header (countyFilteredRows t) = parseSeries (countyFilteredRows t) i ∧
        some ({ Date := ⟨2025, 10, 1⟩, Report_Month := some "Oct 2025",
                County_Name := "Gamma", Metric := "A. 1. Pending from last month",
                Value := 3 } : LongRow).Date ∈
          build_date t.header (countyFilteredRows t) :=
  C7_no_default_date [("19-20.csv", some c7grid)] METRICS_IN_ORDER
    { Date := ⟨2025, 10, 1⟩, Report_Month := some "Oct 2025", County_Name := "Gamma",
      Metric := "A. 1. Pending from last month", Value := 3 } (by decide)

/-- C8, counterexample: with an unreadable first file (no header candidate
mentions a county column) followed by a readable one, the load returns only
the good file's row and only the good file's log line — the skip is silent,
no log line records it, contradicting the claimed "logged" part (the
skip-and-continue part does hold). -/
theorem C8_counterexample :
    load_all [("bad.csv", some c8gridBad), ("20-21.csv", some c8gridGood)]
        METRICS_IN_ORDER =
      ([{ Date := ⟨2025, 11, 1⟩, Report_Month := some "Nov 2025", County_Name := "Delta",
          Metric := "A. 1. Pending from last month", Value := 8 }],
       ["20-21.csv: read with header=0"]) := by decide

/-- C8, amended: a file whose header candidates are exhausted without a
county column is skipped silently — it contributes neither rows nor any log
line — and the load of the remaining files is completely unaffected (no
exception aborts processing). -/
theorem C8_amended (pre post : List (String × Option Grid)) (metrics : List String)
    (nm : String) (g : Grid) (hg : read_cw_csv g = none) :
    load_all (pre ++ (nm, some g) :: post) metrics = load_all (pre ++ post) metrics := by
  have hf : fileFrame metrics (nm, some g) = [] := by
    simp [fileFrame, tableOf, hg]
  have hl : fileLog (nm, some g) = [] := by
    simp [fileLog, hg]
  simp [load_all, allRows, List.map_append, hf, hl]

/-- C8, witness: the amended statement on a concrete unreadable file
appended after a readable one. -/
theorem C8_witness :
    load_all ([("20-21.csv", some c8gridGood)] ++ ("bad.csv", some c8gridBad) :: [])
        METRICS_IN_ORDER =
      load_all ([("20-21.csv", some c8gridGood)] ++ []) METRICS_IN_ORDER :=
  C8_amended [("20-21.csv", some c8gridGood)] [] METRICS_IN_ORDER "bad.csv" c8gridBad
    (by decide)

/-- C9, counterexample: a file that has a `Report_Month` column with a
missing cell (date resolved from `Date_Code`) puts a row with a null
Report_Month into the final Dataset — so not every final row carries a
non-null Report_Month string. -/
theorem C9_counterexample :
    (load_all [("21-22.csv", some c9grid)] METRICS_IN_ORDER).1 =
      [{ Date := ⟨2025, 9, 1⟩, Report_Month := none, County_Name := "Alpha",
         Metric := "A. 1. Pending from last month", Value := 7 }] := by decide

/-- C9, amended: only for files whose normalized columns lack a
`Report_Month` column does the pipeline synthesize one, per row, equal to
the resolved Date formatted `"%b %Y"` (hence non-null for those files);
files that have the column keep its original, possibly missing, cells. -/
theorem C9_amended (metrics : List String) (t : Table) (r : LongRow)
    (hn : t.header.contains "Report_Month" = false)
    (h : r ∈ processTable metrics t) :
    r.Report_Month = some (strftimeBY r.Date) :=
  processTable_rm hn h

/-- C9, witness: the synthesized `"Dec 2025"` report month on a concrete
table without a `Report_Month` column. -/
theorem C9_witness :
    ({ Date := ⟨2025, 12, 1⟩, Report_Month := some "Dec 2025", County_Name := "Epsilon",
       Metric := "A. 1. Pending from last month", Value := 9 } : LongRow).Report_Month =
      some (strftimeBY ⟨2025, 12, 1⟩) :=
  C9_amended METRICS_IN_ORDER c9table
    { Date := ⟨2025, 12, 1⟩, Report_Month := some "Dec 2025", County_Name := "Epsilon",
      Metric := "A. 1. Pending from last month", Value := 9 } (by decide) (by decide)

/-- C10: a missing county cell is rendered as the literal string `"nan"`
by the `astype(str)` sanitizer; `"nan"` is not `"Statewide"` and contains
letters, so the row passes the county filter, and on a concrete file such a
row indeed reaches the final Dataset with County_Name `"nan"`. -/
theorem C10_missing_county :
    (∀ (r : List Cell) (i : Nat), cellAt r i = none →
      countyName r i = "nan" ∧ countyKeep (countyName r i) = true) ∧
    (load_all [("22-23.csv", some c10grid)] METRICS_IN_ORDER).1 =
      [{ Date := ⟨2025, 9, 1⟩, Report_Month := some "Sep 2025", County_Name := "nan",
         Metric := "A. 1. Pending from last month", Value := 7 }] := by
  constructor
  · intro r i hc
    unfold countyName
    rw [hc]
    exact ⟨by decide, by decide⟩
  · decide

/-- C10, witness: the filter argument evaluated on the concrete data row
with the missing county cell. -/
theorem C10_witness :
    countyName [some "SEP25", none, some "7"] 1 = "nan" ∧
      countyKeep (countyName [some "SEP25", none, some "7"] 1) = true :=
  C10_missing_county.1 [some "SEP25", none, some "7"] 1 (by decide)
